import Mathlib

/-!
Verification development for the career-intelligence pipeline's task queue
and worker coordination engine.

The embedding models the worker script (ai-worker.ts), the OpenAI service
wrapper (src/services/openai.ts) and the database schema (db-setup.ts).
Database tables are lists of typed rows; every `pool.query` call of the
source is one atomic SQL statement executed in its own implicit
transaction (node-postgres auto-commit: the source never issues BEGIN, so
no two statements share a transaction, and row locks taken by a statement
are released when that statement's implicit transaction commits).
-/

namespace CareerPipeline

/-! ## Data model (tables from db-setup.ts)

`ai_job_queue.status` is constrained to \x7b'pending','running','ok','error'\x7d;
the spec calls `ok` "done" and `error` "failed". -/

inductive Status where
  | pending
  | running
  | ok
  | error
deriving DecidableEq, Repr

/-- One row of `ai_job_queue` as the worker's claim query sees it: the queue
columns (id, job_id, region_id, query_id, status, attempts, priority,
last_error) together with the columns the SELECT joins in from `jobs`
(`canonicalTitle`, `socCode`), `regions` (`code`) and `prompt_templates`
(`template`).  The joins are inner joins on NOT NULL foreign keys, so they
are modelled as denormalised attributes of the queue row.  `updated_at`
timestamps carry no claim-relevant information and are omitted. -/
structure QueueRow where
  id : Nat
  job_id : Nat
  region_id : Nat
  query_id : String
  status : Status
  attempts : Nat
  priority : Int
  last_error : Option String
  canonical_title : String
  soc_code : String
  region_code : String
  prompt_template : String
deriving DecidableEq, Repr

/-- One row of `job_progress` (primary key (job_id, region_id, query_id)). -/
structure ProgressRow where
  job_id : Nat
  region_id : Nat
  query_id : String
  status : Status
  last_error : Option String
deriving DecidableEq, Repr

/-- JSON values, as produced by `JSON.parse`.  Numbers are modelled as
integers: no claim depends on fractional values, and the only arithmetic
fact used about a number is whether it is zero (JS truthiness). -/
inductive JSValue where
  | null
  | bool (b : Bool)
  | num (n : Int)
  | str (s : String)
  | arr (elems : List JSValue)
  | obj (fields : List (String × JSValue))

/-- One row of `career_intelligence_data` (UNIQUE(job_id, region_id,
query_id)); `response_data` is the stored JSONB payload. -/
structure ResultRow where
  job_id : Nat
  region_id : Nat
  query_id : String
  response_data : JSValue

/-- One row of the append-only `ai_errors` table. -/
structure ErrorRow where
  job_id : Nat
  region_id : Nat
  query_id : String
  model : String
  error : String

/-- The database state shared by all workers. -/
structure DB where
  queue : List QueueRow
  progress : List ProgressRow
  results : List ResultRow
  errors : List ErrorRow

/-! ## Dequeue / lease protocol (fetchQueueItem in ai-worker.ts)

The claim query is
`SELECT ... FROM ai_job_queue q JOIN ... WHERE q.status = 'pending'
 [AND r.code = $1] ORDER BY q.priority DESC, q.id ASC LIMIT 1
 FOR UPDATE SKIP LOCKED`.
`locked` is the set of queue ids momentarily row-locked by some other
in-flight statement; SKIP LOCKED makes those rows invisible. -/

/-- A queue row is visible to the claim query: status pending, matching the
optional region filter, and not locked by another in-flight statement. -/
def visiblePending (regionCode : Option String) (locked : List Nat) (r : QueueRow) : Bool :=
  r.status == Status.pending
    && (match regionCode with
        | none => true
        | some c => r.region_code == c)
    && !(locked.contains r.id)

/-- ORDER BY priority DESC, id ASC: `orderedBefore a b` holds when row `a`
sorts strictly before row `b`. -/
def orderedBefore (a b : QueueRow) : Bool :=
  a.priority > b.priority || (a.priority == b.priority && a.id < b.id)

/-- Of two rows, the one the ORDER BY places first (ties keep the first
argument; ids are unique in the real table, so ties cannot arise there). -/
def preferredRow (a b : QueueRow) : QueueRow :=
  if orderedBefore b a then b else a

/-- The claim query: the first visible pending row in
(priority DESC, id ASC) order, or none. -/
def fetchQueueItem (regionCode : Option String) (locked : List Nat) :
    List QueueRow → Option QueueRow
  | [] => none
  | r :: rs =>
    match fetchQueueItem regionCode locked rs with
    | none => if visiblePending regionCode locked r then some r else none
    | some best =>
        if visiblePending regionCode locked r then some (preferredRow r best) else some best

/-! ## Single SQL statements and their semantics

Each constructor is one `pool.query` call of the worker; `execStmt` is the
effect of that one auto-committed statement. -/

inductive SqlStmt where
  | updateQueueRunning (queueId : Nat)
  | updateQueueOk (queueId : Nat)
  | updateQueueError (queueId : Nat) (msg : String)
  | updateProgressOk (jobId regionId : Nat) (queryId : String)
  | updateProgressError (jobId regionId : Nat) (queryId : String) (msg : String)
  | upsertResult (jobId regionId : Nat) (queryId : String) (payload : JSValue)
  | insertError (jobId regionId : Nat) (queryId : String) (model : String) (msg : String)

/-- Predicate for an `ai_job_queue` row addressed by id. -/
def queueIdMatches (queueId : Nat) (r : QueueRow) : Bool :=
  r.id == queueId

/-- Predicate for a `job_progress` row addressed by its key. -/
def progressKeyMatches (jobId regionId : Nat) (queryId : String) (p : ProgressRow) : Bool :=
  p.job_id == jobId && p.region_id == regionId && p.query_id == queryId

/-- Predicate for a `career_intelligence_data` row addressed by its key. -/
def resultKeyMatches (jobId regionId : Nat) (queryId : String) (row : ResultRow) : Bool :=
  row.job_id == jobId && row.region_id == regionId && row.query_id == queryId

/-- Effect of one statement.  UPDATEs touch every row matching the WHERE
clause; the `career_intelligence_data` INSERT has
ON CONFLICT (job_id, region_id, query_id) DO UPDATE (an upsert); the
`ai_errors` INSERT appends. -/
def execStmt (db : DB) : SqlStmt → DB
  | SqlStmt.updateQueueRunning q =>
      { db with queue := db.queue.map fun r =>
          if queueIdMatches q r then { r with status := Status.running } else r }
  | SqlStmt.updateQueueOk q =>
      { db with queue := db.queue.map fun r =>
          if queueIdMatches q r then { r with status := Status.ok } else r }
  | SqlStmt.updateQueueError q msg =>
      { db with queue := db.queue.map fun r =>
          if queueIdMatches q r then
            { r with status := Status.error, last_error := some msg, attempts := r.attempts + 1 }
          else r }
  | SqlStmt.updateProgressOk j rg k =>
      { db with progress := db.progress.map fun p =>
          if progressKeyMatches j rg k p then
            { p with status := Status.ok, last_error := none }
          else p }
  | SqlStmt.updateProgressError j rg k msg =>
      { db with progress := db.progress.map fun p =>
          if progressKeyMatches j rg k p then
            { p with status := Status.error, last_error := some msg }
          else p }
  | SqlStmt.upsertResult j rg k v =>
      if db.results.any (resultKeyMatches j rg k) then
        { db with results := db.results.map fun row =>
            if resultKeyMatches j rg k row then { row with response_data := v } else row }
      else
        { db with results := db.results ++ [⟨j, rg, k, v⟩] }
  | SqlStmt.insertError j rg k model msg =>
      { db with errors := db.errors ++ [⟨j, rg, k, model, msg⟩] }

/-- Statements run in sequence, each auto-committed on its own. -/
def execStmts (db : DB) (stmts : List SqlStmt) : DB :=
  stmts.foldl execStmt db

/-- State visible after the first `failIdx` statements of a commit sequence
succeeded and the next one failed: auto-commit means the completed
statements stay applied and the rest never run. -/
def execStmtsFailAt (db : DB) (stmts : List SqlStmt) (failIdx : Nat) : DB :=
  execStmts db (stmts.take failIdx)

/-! ## Read-side helpers -/

/-- Status of the queue row with the given id (first match). -/
def queueStatus (db : DB) (queueId : Nat) : Option Status :=
  (db.queue.find? (queueIdMatches queueId)).map (·.status)

/-- Status of the progress row with the given key (first match). -/
def progressStatus (db : DB) (jobId regionId : Nat) (queryId : String) : Option Status :=
  (db.progress.find? (progressKeyMatches jobId regionId queryId)).map (·.status)

/-- Does a queue row with this id exist? -/
def queueHasRow (db : DB) (queueId : Nat) : Bool :=
  db.queue.any (queueIdMatches queueId)

/-- Does a progress row with this key exist? -/
def progressHasRow (db : DB) (jobId regionId : Nat) (queryId : String) : Bool :=
  db.progress.any (progressKeyMatches jobId regionId queryId)

/-- Does a result row with this key exist? -/
def resultExists (db : DB) (jobId regionId : Nat) (queryId : String) : Bool :=
  db.results.any (resultKeyMatches jobId regionId queryId)

/-- No two `career_intelligence_data` rows share a (job_id, region_id,
query_id) key. -/
def noDupResultKeys : List ResultRow → Bool
  | [] => true
  | row :: rest =>
      !(rest.any (resultKeyMatches row.job_id row.region_id row.query_id)) && noDupResultKeys rest

/-! ## JSON validation (validateJSON in src/services/openai.ts)

`validateJSON(jsonString, schema?)` parses the string and checks
`!data.query_id || !data.job || !data.data || !data.provenance`.  The
embedding takes the outcome of `JSON.parse` (`Except.error` when the parse
throws) instead of re-implementing a JSON parser; everything after the
parse is modelled exactly. -/

/-- JS truthiness of a parsed JSON value (undefined never comes out of
`JSON.parse`; NaN is not a JSON literal). -/
def truthy : JSValue → Bool
  | JSValue.null => false
  | JSValue.bool b => b
  | JSValue.num n => n != 0
  | JSValue.str s => s != ""
  | JSValue.arr _ => true
  | JSValue.obj _ => true

/-- JS member access `v[key]` on a parse result: `none` when the access
throws a TypeError (only for null), `some none` for undefined (missing key
or non-object receiver), `some (some w)` for a present value.  Objects from
`JSON.parse` have distinct keys (a duplicate key keeps the last value), so
the first match is the only match. -/
def jsMember (v : JSValue) (key : String) : Option (Option JSValue) :=
  match v with
  | JSValue.null => none
  | JSValue.obj fields => some ((fields.find? (fun kv => kv.1 == key)).map (·.2))
  | _ => some none

/-- The field exists on the value and is truthy. -/
def fieldTruthy (v : JSValue) (key : String) : Bool :=
  match jsMember v key with
  | some (some w) => truthy w
  | _ => false

/-- The four top-level fields validateJSON requires. -/
def requiredFields : List String := ["query_id", "job", "data", "provenance"]

/-- Return shape of validateJSON. -/
structure ValidationResult where
  valid : Bool
  data : Option JSValue
  error : Option String

/-- `validateJSON`.  `parsed` is the outcome of `JSON.parse(jsonString)`.
When the parse yields null, the member access `data.query_id` throws a
TypeError which the surrounding try/catch turns into an invalid result
(the message text is engine-dependent; no claim inspects it).  The
`schema` argument is accepted and, as in the source, never used. -/
def validateJSON (parsed : Except String JSValue) (schema : Option JSValue) : ValidationResult :=
  match parsed with
  | Except.error msg => { valid := false, data := none, error := some msg }
  | Except.ok data =>
    match data with
    | JSValue.null =>
        { valid := false, data := none,
          error := some "Cannot read properties of null" }
    | _ =>
        if requiredFields.any (fun k => !(fieldTruthy data k)) then
          { valid := false, data := none,
            error := some "Missing required top-level fields: query_id, job, data, or provenance" }
        else
          { valid := true, data := some data, error := none }

/-! ## OpenAI call with retry/backoff (callOpenAI in src/services/openai.ts) -/

/-- A failed API call as the catch block sees it: optional HTTP `status`,
optional error `code`, the `message`, and whether the underlying failure
was a transport timeout.  The SDK's connection/timeout errors carry no
HTTP status and no API error code. -/
structure ApiError where
  status : Option Int
  code : Option String
  message : String
  isTimeout : Bool
deriving DecidableEq, Repr

/-- The retry-relevant part of `config.ai.retry`. -/
structure AiConfig where
  retryMax : Nat
  backoffSec : Nat
deriving DecidableEq, Repr

/-- `error?.status === 429 || error?.code === 'rate_limit_exceeded'`. -/
def isRateLimitError (e : ApiError) : Bool :=
  e.status == some 429 || e.code == some "rate_limit_exceeded"

/-- `error?.status >= 500` (undefined compared with a number is false). -/
def isServerError (e : ApiError) : Bool :=
  match e.status with
  | some s => decide (500 ≤ s)
  | none => false

/-- `(isRateLimitError || isServerError) && retries < config.ai.retry.max`. -/
def shouldRetry (cfg : AiConfig) (e : ApiError) (retries : Nat) : Bool :=
  (isRateLimitError e || isServerError e) && decide (retries < cfg.retryMax)

/-- `config.ai.retry.backoffSec * 1000 * Math.pow(2, retries)`. -/
def backoffMs (cfg : AiConfig) (retries : Nat) : Nat :=
  cfg.backoffSec * 1000 * 2 ^ retries

/-- Modelled from the spec: the §7 taxonomy's `TransientUpstream` class —
rate limit, server fault, or timeout. -/
def specTransientUpstream (e : ApiError) : Bool :=
  isRateLimitError e || isServerError e || e.isTimeout

/-- A returned payload string, represented by its `JSON.parse` outcome
(the only consumer of the string is `JSON.parse` inside validateJSON). -/
def Payload : Type := Except String JSValue

/-- `callOpenAI(request, retries)`.  `attempts i` is what the i-th
underlying API call does: fail with an error or return the response
content.  The result carries the final outcome, the number of API calls
made, and the list of backoff delays (ms) slept between attempts, in
order. -/
def callOpenAI (cfg : AiConfig) (attempts : Nat → Sum ApiError Payload) (retries : Nat) :
    Except ApiError Payload × Nat × List Nat :=
  match attempts retries with
  | Sum.inr content => (Except.ok content, 1, [])
  | Sum.inl e =>
      if h : shouldRetry cfg e retries = true then
        let rest := callOpenAI cfg attempts (retries + 1)
        (rest.1, rest.2.1 + 1, backoffMs cfg retries :: rest.2.2)
      else
        (Except.error e, 1, [])
termination_by cfg.retryMax - retries
decreasing_by
  simp only [shouldRetry, Bool.and_eq_true, decide_eq_true_eq] at h
  omega

/-! ## Worker commit sequences (ai-worker.ts)

Each function below returns, in order, the SQL statements the source
function issues; each statement is separately auto-committed. -/

/-- `s.substring(0, n)` (the source's defensive truncation). -/
def jsSubstring (n : Nat) (s : String) : String :=
  s.take n

/-- `config.openai.model`; environment-provided, its concrete value is
irrelevant to every claim. -/
def configOpenaiModel : String := "gpt-4o-mini"

/-- markQueueItemRunning: one UPDATE of ai_job_queue. -/
def markQueueItemRunning (queueId : Nat) : List SqlStmt :=
  [SqlStmt.updateQueueRunning queueId]

/-- markQueueItemComplete: UPDATE ai_job_queue to 'ok', then UPDATE
job_progress to 'ok' with last_error = NULL. -/
def markQueueItemComplete (queueId jobId regionId : Nat) (queryId : String) : List SqlStmt :=
  [SqlStmt.updateQueueOk queueId,
   SqlStmt.updateProgressOk jobId regionId queryId]

/-- markQueueItemError: UPDATE ai_job_queue to 'error' (truncated message,
attempts + 1), UPDATE job_progress to 'error' (truncated message), INSERT
into ai_errors (message truncated to 5000). -/
def markQueueItemError (queueId jobId regionId : Nat) (queryId error : String) : List SqlStmt :=
  [SqlStmt.updateQueueError queueId (jsSubstring 1000 error),
   SqlStmt.updateProgressError jobId regionId queryId (jsSubstring 1000 error),
   SqlStmt.insertError jobId regionId queryId configOpenaiModel (jsSubstring 5000 error)]

/-- saveCareerIntelligence: one upsert into career_intelligence_data. -/
def saveCareerIntelligence (jobId regionId : Nat) (queryId : String) (data : JSValue) :
    List SqlStmt :=
  [SqlStmt.upsertResult jobId regionId queryId data]

/-- `renderPrompt(template, variables)`: replaces every occurrence of
\x7b\x7bkey\x7d\x7d by the value, one variable after another in entry
order; unresolved placeholders stay verbatim. -/
def renderPrompt (template : String) (vars : List (String × String)) : String :=
  vars.foldl
    (fun rendered kv => rendered.replace ("\x7b\x7b" ++ kv.1 ++ "\x7d\x7d") kv.2)
    template

/-- The projected row processQueueItem receives from fetchQueueItem. -/
structure QueueItem where
  queue_id : Nat
  job_id : Nat
  region_id : Nat
  query_id : String
  canonical_title : String
  soc_code : String
  region_code : String
  prompt_template : String
deriving DecidableEq, Repr

/-- Projection of a joined queue row to the worker's QueueItem record. -/
def QueueRow.toItem (r : QueueRow) : QueueItem :=
  { queue_id := r.id, job_id := r.job_id, region_id := r.region_id,
    query_id := r.query_id, canonical_title := r.canonical_title,
    soc_code := r.soc_code, region_code := r.region_code,
    prompt_template := r.prompt_template }

/-- Command-line options of the worker (ai-worker.ts `WorkerOptions`). -/
structure WorkerOptions where
  maxItems : Option Nat
  region : Option String
  sleep : Nat
  dryRun : Bool
  verbose : Bool
deriving DecidableEq, Repr

/-- JS template interpolation of a possibly-undefined string. -/
def optText : Option String → String
  | some s => s
  | none => "undefined"

/-- What one call to processQueueItem does: the SQL statements it issues in
order, the number of Generation Service (OpenAI API) calls it makes, and
its boolean return value. -/
structure ProcessOutcome where
  stmts : List SqlStmt
  apiCalls : Nat
  success : Bool

/-- processQueueItem: mark running; render the prompt; unless dry-run, call
OpenAI (with its internal retry chain), validate the JSON, save the
payload and mark complete; any thrown error (failed call chain or invalid
JSON) is caught and committed via markQueueItemError.  Database statements
themselves are assumed to succeed here; partial statement failure is
modelled separately by `execStmtsFailAt`. -/
def processQueueItem (cfg : AiConfig) (item : QueueItem) (opts : WorkerOptions)
    (attempts : Nat → Sum ApiError Payload) : ProcessOutcome :=
  if opts.dryRun then
    { stmts := markQueueItemRunning item.queue_id
        ++ markQueueItemComplete item.queue_id item.job_id item.region_id item.query_id,
      apiCalls := 0, success := true }
  else
    match callOpenAI cfg attempts 0 with
    | (Except.error e, n, _) =>
        { stmts := markQueueItemRunning item.queue_id
            ++ markQueueItemError item.queue_id item.job_id item.region_id item.query_id
                 e.message,
          apiCalls := n, success := false }
    | (Except.ok content, n, _) =>
        let validation := validateJSON content none
        if validation.valid then
          { stmts := markQueueItemRunning item.queue_id
              ++ saveCareerIntelligence item.job_id item.region_id item.query_id
                   (validation.data.getD JSValue.null)
              ++ markQueueItemComplete item.queue_id item.job_id item.region_id item.query_id,
            apiCalls := n, success := true }
        else
          { stmts := markQueueItemRunning item.queue_id
              ++ markQueueItemError item.queue_id item.job_id item.region_id item.query_id
                   ("Invalid JSON response: " ++ optText validation.error),
            apiCalls := n, success := false }

/-! ## The worker loop (main in ai-worker.ts) -/

/-- JS truthiness of `options.maxItems` (undefined and 0 are falsy). -/
def truthyNat : Option Nat → Bool
  | none => false
  | some n => n != 0

/-- Accumulated counts of the loop. -/
structure LoopCounts where
  processed : Nat
  successful : Nat
  failed : Nat
deriving DecidableEq, Repr

/-- What one loop iteration does after its claim attempt. -/
inductive IterAction where
  | exit
  | sleepRetry (ms : Nat)
  | continueLoop
deriving DecidableEq, Repr

/-- One iteration of the `while (true)` loop: `fetched` is what
fetchQueueItem returned, `procSuccess` what processQueueItem would return
for it.  Empty fetch: break when `options.maxItems` is truthy, else sleep
`options.sleep * 1000` ms and retry.  Otherwise count the item and break
when `maxItems` is truthy and `processed >= maxItems`. -/
def mainIteration (opts : WorkerOptions) (c : LoopCounts) (fetched : Option QueueItem)
    (procSuccess : Bool) : LoopCounts × IterAction :=
  match fetched with
  | none =>
      if truthyNat opts.maxItems then (c, IterAction.exit)
      else (c, IterAction.sleepRetry (opts.sleep * 1000))
  | some _ =>
      let c' : LoopCounts :=
        { processed := c.processed + 1,
          successful := c.successful + (if procSuccess then 1 else 0),
          failed := c.failed + (if procSuccess then 0 else 1) }
      if truthyNat opts.maxItems && decide (opts.maxItems.getD 0 ≤ c'.processed) then
        (c', IterAction.exit)
      else (c', IterAction.continueLoop)

/-! ## Two workers interleaving the claim protocol

A worker claims by running two separate auto-committed statements: the
SELECT ... FOR UPDATE SKIP LOCKED (fetchQueueItem) and then the UPDATE to
'running' (markQueueItemRunning).  Because the source never opens a
transaction, the row lock taken by the SELECT is released when that
statement's implicit transaction commits — before the worker's next
statement runs — so every statement starts with an empty lock set. -/

structure TwoWorkerState where
  db : DB
  claimed1 : Option QueueRow
  claimed2 : Option QueueRow

/-- One atomic statement of worker 1 or worker 2. -/
inductive ClaimStep where
  | fetch1
  | fetch2
  | markRunning1
  | markRunning2
deriving DecidableEq, Repr

/-- Effect of one statement of the claim protocol.  The fetch runs against
an empty locked set (see the section comment). -/
def execClaimStep (regionCode : Option String) (s : TwoWorkerState) : ClaimStep → TwoWorkerState
  | ClaimStep.fetch1 => { s with claimed1 := fetchQueueItem regionCode [] s.db.queue }
  | ClaimStep.fetch2 => { s with claimed2 := fetchQueueItem regionCode [] s.db.queue }
  | ClaimStep.markRunning1 =>
      match s.claimed1 with
      | some r => { s with db := execStmts s.db (markQueueItemRunning r.id) }
      | none => s
  | ClaimStep.markRunning2 =>
      match s.claimed2 with
      | some r => { s with db := execStmts s.db (markQueueItemRunning r.id) }
      | none => s

/-- Run an interleaving of the two workers' claim statements. -/
def runClaimSchedule (regionCode : Option String) (s : TwoWorkerState)
    (steps : List ClaimStep) : TwoWorkerState :=
  steps.foldl (execClaimStep regionCode) s

/-! ## Concrete fixtures used by witnesses and counterexamples -/

/-- Does a statement write the `job_progress` table? -/
def touchesProgress : SqlStmt → Bool
  | SqlStmt.updateProgressOk _ _ _ => true
  | SqlStmt.updateProgressError _ _ _ _ => true
  | _ => false

/-- A pending queue row (joined attributes included). -/
def exampleQueueRow : QueueRow :=
  { id := 1, job_id := 10, region_id := 1, query_id := "salary",
    status := Status.pending, attempts := 0, priority := 100, last_error := none,
    canonical_title := "Registered Nurses", soc_code := "29-1141",
    region_code := "US", prompt_template := "Analyze the role" }

/-- The same row after a claim marked it running. -/
def exampleRunningRow : QueueRow :=
  { exampleQueueRow with status := Status.running }

/-- A database with one pending task instance and its progress mirror. -/
def exampleDB : DB :=
  { queue := [exampleQueueRow],
    progress := [⟨10, 1, "salary", Status.pending, none⟩],
    results := [], errors := [] }

/-- A database with the instance claimed (queue and progress `running`). -/
def exampleRunningDB : DB :=
  { queue := [exampleRunningRow],
    progress := [⟨10, 1, "salary", Status.running, none⟩],
    results := [], errors := [] }

/-- Default retry configuration (AI_RETRY_MAX = 3, AI_RETRY_BACKOFF = 15). -/
def cfgDefault : AiConfig := { retryMax := 3, backoffSec := 15 }

/-- Worker options for a live bounded run (`--max=5`). -/
def optsLive : WorkerOptions :=
  { maxItems := some 5, region := none, sleep := 5, dryRun := false, verbose := false }

/-- The QueueItem projection of the example row. -/
def exampleItem : QueueItem := QueueRow.toItem exampleQueueRow

/-- A payload with all four required top-level fields, truthy. -/
def goodPayload : JSValue :=
  JSValue.obj [("query_id", JSValue.str "salary"), ("job", JSValue.str "Registered Nurses"),
               ("data", JSValue.obj [("median", JSValue.num 86070)]),
               ("provenance", JSValue.str "BLS 2023")]

/-- A payload missing the required `provenance` field. -/
def badPayload : JSValue :=
  JSValue.obj [("query_id", JSValue.str "salary"), ("job", JSValue.str "Registered Nurses"),
               ("data", JSValue.obj [("median", JSValue.num 86070)])]

/-- A transport timeout as the SDK delivers it: no HTTP status, no API
error code. -/
def timeoutError : ApiError :=
  { status := none, code := none, message := "Request timed out.", isTimeout := true }

/-- An HTTP 429 rate-limit error. -/
def rateLimitError : ApiError :=
  { status := some 429, code := none, message := "Rate limit reached", isTimeout := false }

/-! ## Helper lemmas -/

/-- find? commutes with a map that does not change the predicate. -/
theorem find?_map_of_pres {α : Type} (p : α → Bool) (f : α → α)
    (hf : ∀ x, p (f x) = p x) :
    ∀ l : List α, (l.map f).find? p = (l.find? p).map f := by
  intro l
  induction l with
  | nil => rfl
  | cons x xs ih =>
      simp only [List.map_cons, List.find?_cons]
      rw [hf x]
      cases hx : p x with
      | true => rfl
      | false => simpa using ih

/-- any = true yields the first matching row via find?. -/
theorem any_find? {α : Type} {p : α → Bool} {l : List α} (h : l.any p = true) :
    ∃ x, l.find? p = some x ∧ p x = true := by
  rw [List.any_eq_true] at h
  obtain ⟨x, hx, hpx⟩ := h
  have hs : (l.find? p).isSome := List.find?_isSome.mpr ⟨x, hx, hpx⟩
  obtain ⟨y, hy⟩ := Option.isSome_iff_exists.mp hs
  exact ⟨y, hy, List.find?_some hy⟩

/-- any (f · != true-changer) is stable under predicate-preserving map. -/
theorem any_map_of_pres {α : Type} (p : α → Bool) (f : α → α)
    (hf : ∀ x, p (f x) = p x) (l : List α) :
    (l.map f).any p = l.any p := by
  induction l with
  | nil => rfl
  | cons x xs ih => simp only [List.map_cons, List.any_cons, ih, hf]

/-- any (fun k, bool-negated) versus all. -/
theorem any_not_eq_not_all {α : Type} (l : List α) (p : α → Bool) :
    (l.any fun a => !(p a)) = !(l.all p) := by
  induction l with
  | nil => rfl
  | cons x xs ih => simp [List.any_cons, List.all_cons, ih, Bool.not_and]

/-! ## C10: payload validator -/

/-- validity of a parsed payload equals the all-fields-truthy test. -/
theorem validateJSON_valid_ok (v : JSValue) (s : Option JSValue) :
    (validateJSON (Except.ok v) s).valid = requiredFields.all (fun k => fieldTruthy v k) := by
  cases v with
  | null => rfl
  | bool b => rfl
  | num n => rfl
  | str str => rfl
  | arr elems => rfl
  | obj fields =>
      simp only [validateJSON]
      rw [any_not_eq_not_all]
      by_cases h : requiredFields.all (fun k => fieldTruthy (JSValue.obj fields) k) = true
      · rw [h]; simp
      · have h' : requiredFields.all (fun k => fieldTruthy (JSValue.obj fields) k) = false := by
          simpa using h
        rw [h']; simp

/-- C10: the payload validator accepts exactly the strings that parse as
JSON into a value on which each of the four fixed top-level fields
query_id, job, data, provenance is present and truthy (a present but falsy
field — empty string, 0, null, false — is rejected), and its result does
not depend on the optional schema argument, which is never consulted. -/
theorem validateJSON_valid_iff (parsed : Except String JSValue) (s1 s2 : Option JSValue) :
    ((validateJSON parsed s1).valid = true ↔
        ∃ v, parsed = Except.ok v ∧ requiredFields.all (fun k => fieldTruthy v k) = true)
    ∧ validateJSON parsed s1 = validateJSON parsed s2 := by
  refine ⟨?_, rfl⟩
  cases parsed with
  | error msg => simp [validateJSON]
  | ok v =>
      rw [validateJSON_valid_ok]
      constructor
      · intro h
        exact ⟨v, rfl, h⟩
      · rintro ⟨v', hv', h⟩
        cases Except.ok.inj hv'
        exact h

/-! ## C1: the claim protocol is not atomic across its two statements -/

/-- C1: with one pending row and the interleaving (worker 1 fetch, worker 2
fetch, worker 1 mark running, worker 2 mark running), both workers claim
the same queue row id 1 and both proceed holding it in running — the
SELECT ... FOR UPDATE SKIP LOCKED and the UPDATE to 'running' are separate
auto-committed statements, so the row lock is gone before the second
worker's fetch runs. -/
theorem double_claim_interleaving :
    (runClaimSchedule none ⟨exampleDB, none, none⟩
        [ClaimStep.fetch1, ClaimStep.fetch2, ClaimStep.markRunning1, ClaimStep.markRunning2]).claimed1
      = some exampleQueueRow
    ∧ (runClaimSchedule none ⟨exampleDB, none, none⟩
        [ClaimStep.fetch1, ClaimStep.fetch2, ClaimStep.markRunning1, ClaimStep.markRunning2]).claimed2
      = some exampleQueueRow
    ∧ queueStatus (runClaimSchedule none ⟨exampleDB, none, none⟩
        [ClaimStep.fetch1, ClaimStep.fetch2, ClaimStep.markRunning1, ClaimStep.markRunning2]).db 1
      = some Status.running :=
  ⟨rfl, rfl, rfl⟩

/-! ## C2: the commit shapes are not atomic -/

/-- C2's counterexample: in the success commit, when the second statement
(the progress update) fails after the first auto-committed, the Task
Instance is observably 'ok' while the Progress Record is unchanged — a
constituent write failed yet another write is observably applied. -/
theorem markQueueItemComplete_not_atomic_cex :
    queueStatus (execStmtsFailAt exampleRunningDB (markQueueItemComplete 1 10 1 "salary") 1) 1
      = some Status.ok
    ∧ progressStatus (execStmtsFailAt exampleRunningDB (markQueueItemComplete 1 10 1 "salary") 1)
        10 1 "salary" = some Status.running :=
  ⟨rfl, rfl⟩

/-! ## C3: the running transition is not paired with a progress update -/

/-- C3's counterexample: markQueueItemRunning transitions the Task Instance
pending → running and leaves the Progress Record untouched (still
pending); no Progress Record update is part of that transition at all. -/
theorem markQueueItemRunning_no_progress_cex :
    queueStatus (execStmts exampleDB (markQueueItemRunning 1)) 1 = some Status.running
    ∧ progressStatus (execStmts exampleDB (markQueueItemRunning 1)) 10 1 "salary"
        = some Status.pending
    ∧ (execStmts exampleDB (markQueueItemRunning 1)).progress = exampleDB.progress :=
  ⟨rfl, rfl, rfl⟩

/-! ## C9: empty claim with a budget set -/

/-- C9's counterexample: with a finite budget of 5 and zero items processed
(budget not exhausted), an empty claim makes the loop exit instead of
sleeping and retrying. -/
theorem empty_fetch_with_budget_exits_cex :
    optsLive.maxItems = some 5
    ∧ mainIteration optsLive ⟨0, 0, 0⟩ none true = (⟨0, 0, 0⟩, IterAction.exit) :=
  ⟨rfl, rfl⟩

/-- C9 (amended): when the claim comes back empty the loop exits
immediately with the accumulated counts whenever a (truthy) max_items
budget is set — exhausted or not — and sleeps `sleep * 1000` ms and
retries only when no budget is set. -/
theorem idle_claim_behavior (opts : WorkerOptions) (c : LoopCounts) (procSuccess : Bool) :
    (truthyNat opts.maxItems = true →
        mainIteration opts c none procSuccess = (c, IterAction.exit))
    ∧ (truthyNat opts.maxItems = false →
        mainIteration opts c none procSuccess = (c, IterAction.sleepRetry (opts.sleep * 1000))) := by
  constructor <;> intro h <;> simp [mainIteration, h]

/-! ## Status-update lemmas -/

/-- queueStatus after an UPDATE that sets a fixed status on the addressed
row. -/
theorem queueStatus_map_const (db : DB) (q : Nat) (f : QueueRow → QueueRow) (c : Status)
    (hid : ∀ r, (f r).id = r.id) (hst : ∀ r, (f r).status = c)
    (h : queueHasRow db q = true) :
    queueStatus { db with queue := db.queue.map fun r => if queueIdMatches q r then f r else r } q
      = some c := by
  have hpres : ∀ r : QueueRow,
      queueIdMatches q (if queueIdMatches q r then f r else r) = queueIdMatches q r := by
    intro r
    by_cases hr : queueIdMatches q r = true
    · rw [if_pos hr]
      show ((f r).id == q) = (r.id == q)
      rw [hid r]
    · rw [if_neg hr]
  show ((db.queue.map fun r => if queueIdMatches q r then f r else r).find?
      (queueIdMatches q)).map (·.status) = some c
  rw [find?_map_of_pres _ _ hpres db.queue]
  obtain ⟨r, hfind, hpr⟩ := any_find? h
  rw [hfind, Option.map_some', Option.map_some', if_pos hpr, hst]

/-- progressStatus after an UPDATE that sets a fixed status on the
addressed key. -/
theorem progressStatus_map_const (db : DB) (j rg : Nat) (k : String)
    (f : ProgressRow → ProgressRow) (c : Status)
    (hkey : ∀ p, (f p).job_id = p.job_id ∧ (f p).region_id = p.region_id
      ∧ (f p).query_id = p.query_id)
    (hst : ∀ p, (f p).status = c)
    (h : progressHasRow db j rg k = true) :
    progressStatus { db with progress := db.progress.map fun p =>
        if progressKeyMatches j rg k p then f p else p } j rg k = some c := by
  have hpres : ∀ p : ProgressRow,
      progressKeyMatches j rg k (if progressKeyMatches j rg k p then f p else p)
        = progressKeyMatches j rg k p := by
    intro p
    by_cases hr : progressKeyMatches j rg k p = true
    · rw [if_pos hr]
      show ((f p).job_id == j && (f p).region_id == rg && (f p).query_id == k)
        = (p.job_id == j && p.region_id == rg && p.query_id == k)
      rw [(hkey p).1, (hkey p).2.1, (hkey p).2.2]
    · rw [if_neg hr]
  show ((db.progress.map fun p => if progressKeyMatches j rg k p then f p else p).find?
      (progressKeyMatches j rg k)).map (·.status) = some c
  rw [find?_map_of_pres _ _ hpres db.progress]
  obtain ⟨p, hfind, hpp⟩ := any_find? h
  rw [hfind, Option.map_some', Option.map_some', if_pos hpp, hst]

/-- The UPDATE to 'ok' sets the addressed queue row's status to ok. -/
theorem queueStatus_updateQueueOk (db : DB) (q : Nat) (h : queueHasRow db q = true) :
    queueStatus (execStmt db (SqlStmt.updateQueueOk q)) q = some Status.ok :=
  queueStatus_map_const db q (fun r => { r with status := Status.ok }) Status.ok
    (fun _ => rfl) (fun _ => rfl) h

/-- The UPDATE to 'running' sets the addressed queue row's status. -/
theorem queueStatus_updateQueueRunning (db : DB) (q : Nat) (h : queueHasRow db q = true) :
    queueStatus (execStmt db (SqlStmt.updateQueueRunning q)) q = some Status.running :=
  queueStatus_map_const db q (fun r => { r with status := Status.running }) Status.running
    (fun _ => rfl) (fun _ => rfl) h

/-- The UPDATE to 'error' sets the addressed queue row's status. -/
theorem queueStatus_updateQueueError (db : DB) (q : Nat) (msg : String)
    (h : queueHasRow db q = true) :
    queueStatus (execStmt db (SqlStmt.updateQueueError q msg)) q = some Status.error :=
  queueStatus_map_const db q
    (fun r => { r with status := Status.error, last_error := some msg,
                       attempts := r.attempts + 1 })
    Status.error (fun _ => rfl) (fun _ => rfl) h

/-- The progress UPDATE to 'ok' sets the addressed progress row's status. -/
theorem progressStatus_updateProgressOk (db : DB) (j rg : Nat) (k : String)
    (h : progressHasRow db j rg k = true) :
    progressStatus (execStmt db (SqlStmt.updateProgressOk j rg k)) j rg k = some Status.ok :=
  progressStatus_map_const db j rg k
    (fun p => { p with status := Status.ok, last_error := none }) Status.ok
    (fun _ => ⟨rfl, rfl, rfl⟩) (fun _ => rfl) h

/-- The progress UPDATE to 'error' sets the addressed progress row's
status. -/
theorem progressStatus_updateProgressError (db : DB) (j rg : Nat) (k msg : String)
    (h : progressHasRow db j rg k = true) :
    progressStatus (execStmt db (SqlStmt.updateProgressError j rg k msg)) j rg k
      = some Status.error :=
  progressStatus_map_const db j rg k
    (fun p => { p with status := Status.error, last_error := some msg }) Status.error
    (fun _ => ⟨rfl, rfl, rfl⟩) (fun _ => rfl) h

/-! ## C2 (amended) and C3 (amended) -/

/-- C2 (amended): the two commit shapes are not transactions — their
constituent writes run as separate auto-committed statements in a fixed
order.  When every statement succeeds, the success commit leaves the Task
Instance and the Progress Record 'ok' (done), and the failure commit
leaves both 'error' (failed) and appends exactly one Error Entry; but if a
later statement fails, the earlier writes stay observably applied: failure
of the success commit's second statement leaves the Task Instance done
with the Progress Record untouched, and failure of the failure commit's
third statement leaves the Error Log without its entry. -/
theorem commit_writes_sequential (db : DB) (q j rg : Nat) (k e : String)
    (hq : queueHasRow db q = true) (hp : progressHasRow db j rg k = true) :
    (queueStatus (execStmts db (markQueueItemComplete q j rg k)) q = some Status.ok
      ∧ progressStatus (execStmts db (markQueueItemComplete q j rg k)) j rg k = some Status.ok)
    ∧ ((execStmtsFailAt db (markQueueItemComplete q j rg k) 1).progress = db.progress
      ∧ queueStatus (execStmtsFailAt db (markQueueItemComplete q j rg k) 1) q = some Status.ok)
    ∧ (queueStatus (execStmts db (markQueueItemError q j rg k e)) q = some Status.error
      ∧ progressStatus (execStmts db (markQueueItemError q j rg k e)) j rg k = some Status.error
      ∧ (execStmts db (markQueueItemError q j rg k e)).errors
          = db.errors ++ [⟨j, rg, k, configOpenaiModel, jsSubstring 5000 e⟩]
      ∧ (execStmtsFailAt db (markQueueItemError q j rg k e) 2).errors = db.errors) := by
  refine ⟨⟨?_, ?_⟩, ⟨rfl, ?_⟩, ?_, ?_, rfl, rfl⟩
  · exact queueStatus_updateQueueOk db q hq
  · exact progressStatus_updateProgressOk (execStmt db (SqlStmt.updateQueueOk q)) j rg k hp
  · exact queueStatus_updateQueueOk db q hq
  · exact queueStatus_updateQueueError db q (jsSubstring 1000 e) hq
  · exact progressStatus_updateProgressError
      (execStmt db (SqlStmt.updateQueueError q (jsSubstring 1000 e))) j rg k
      (jsSubstring 1000 e) hp

/-- Witness for C2's amended theorem at a concrete database. -/
theorem commit_writes_sequential_witness :
    queueStatus (execStmts exampleRunningDB (markQueueItemComplete 1 10 1 "salary")) 1
      = some Status.ok
    ∧ (execStmtsFailAt exampleRunningDB (markQueueItemComplete 1 10 1 "salary") 1).progress
      = exampleRunningDB.progress :=
  ⟨(commit_writes_sequential exampleRunningDB 1 10 1 "salary" "boom" rfl rfl).1.1,
   (commit_writes_sequential exampleRunningDB 1 10 1 "salary" "boom" rfl rfl).2.1.1⟩

/-- C3 (amended): the running → done and running → failed transitions are
paired with the corresponding Progress Record update for the same
(entity, region, task) key — issued as a separate adjacent auto-committed
statement, not in the same commit — while the pending → running transition
(markQueueItemRunning) contains no Progress Record write at all and leaves
the progress ledger unchanged. -/
theorem status_transition_progress_pairing (db : DB) (q j rg : Nat) (k e : String)
    (hp : progressHasRow db j rg k = true) :
    ((markQueueItemRunning q).all (fun s => !(touchesProgress s)) = true
      ∧ (execStmts db (markQueueItemRunning q)).progress = db.progress)
    ∧ progressStatus (execStmts db (markQueueItemComplete q j rg k)) j rg k = some Status.ok
    ∧ progressStatus (execStmts db (markQueueItemError q j rg k e)) j rg k
        = some Status.error := by
  refine ⟨⟨rfl, rfl⟩, ?_, ?_⟩
  · exact progressStatus_updateProgressOk (execStmt db (SqlStmt.updateQueueOk q)) j rg k hp
  · exact progressStatus_updateProgressError
      (execStmt db (SqlStmt.updateQueueError q (jsSubstring 1000 e))) j rg k
      (jsSubstring 1000 e) hp

/-- Witness for C3's amended theorem at a concrete database. -/
theorem status_transition_progress_pairing_witness :
    progressStatus (execStmts exampleRunningDB (markQueueItemComplete 1 10 1 "salary"))
      10 1 "salary" = some Status.ok :=
  (status_transition_progress_pairing exampleRunningDB 1 10 1 "salary" "boom" rfl).2.1

/-! ## C4: Results Store uniqueness -/

/-- Key matching between two rows is symmetric. -/
theorem resultKeyMatches_comm (a b : ResultRow) :
    resultKeyMatches a.job_id a.region_id a.query_id b
      = resultKeyMatches b.job_id b.region_id b.query_id a := by
  unfold resultKeyMatches
  rw [Bool.eq_iff_iff]
  simp only [Bool.and_eq_true, beq_iff_eq]
  constructor
  · rintro ⟨⟨h1, h2⟩, h3⟩
    exact ⟨⟨h1.symm, h2.symm⟩, h3.symm⟩
  · rintro ⟨⟨h1, h2⟩, h3⟩
    exact ⟨⟨h1.symm, h2.symm⟩, h3.symm⟩

/-- noDupResultKeys is stable under a key-preserving map. -/
theorem noDup_map_keys (f : ResultRow → ResultRow)
    (hkey : ∀ x, (f x).job_id = x.job_id ∧ (f x).region_id = x.region_id
      ∧ (f x).query_id = x.query_id) :
    ∀ l : List ResultRow, noDupResultKeys (l.map f) = noDupResultKeys l := by
  have hmatch : ∀ (j rg : Nat) (k : String) (y : ResultRow),
      resultKeyMatches j rg k (f y) = resultKeyMatches j rg k y := by
    intro j rg k y
    show ((f y).job_id == j && (f y).region_id == rg && (f y).query_id == k) = _
    rw [(hkey y).1, (hkey y).2.1, (hkey y).2.2]
    rfl
  intro l
  induction l with
  | nil => rfl
  | cons x xs ih =>
      show (!(xs.map f).any (resultKeyMatches (f x).job_id (f x).region_id (f x).query_id)
          && noDupResultKeys (xs.map f)) = noDupResultKeys (x :: xs)
      rw [(hkey x).1, (hkey x).2.1, (hkey x).2.2, ih,
          any_map_of_pres _ f (fun y => hmatch _ _ _ y) xs]
      rfl

/-- Appending a row whose key is absent preserves noDupResultKeys. -/
theorem noDup_append_new (new : ResultRow) :
    ∀ l : List ResultRow, noDupResultKeys l = true →
      l.any (resultKeyMatches new.job_id new.region_id new.query_id) = false →
      noDupResultKeys (l ++ [new]) = true := by
  intro l
  induction l with
  | nil => intro _ _; rfl
  | cons x xs ih =>
      intro hnd hany
      simp only [noDupResultKeys, Bool.and_eq_true, Bool.not_eq_true'] at hnd
      obtain ⟨hxnot, hnd'⟩ := hnd
      simp only [List.any_cons, Bool.or_eq_false_iff] at hany
      obtain ⟨hx, hxs⟩ := hany
      show (!(xs ++ [new]).any (resultKeyMatches x.job_id x.region_id x.query_id)
          && noDupResultKeys (xs ++ [new])) = true
      rw [Bool.and_eq_true]
      constructor
      · have hnew : resultKeyMatches x.job_id x.region_id x.query_id new = false := by
          rw [resultKeyMatches_comm x new]
          exact hx
        simp [List.any_append, List.any_cons, hxnot, hnew]
      · exact ih hnd' hxs

/-- Every single statement preserves key-uniqueness of the Results Store. -/
theorem noDupResultKeys_execStmt (db : DB) (s : SqlStmt)
    (h : noDupResultKeys db.results = true) :
    noDupResultKeys (execStmt db s).results = true := by
  cases s with
  | updateQueueRunning q => exact h
  | updateQueueOk q => exact h
  | updateQueueError q msg => exact h
  | updateProgressOk j rg k => exact h
  | updateProgressError j rg k msg => exact h
  | insertError j rg k model msg => exact h
  | upsertResult j rg k v =>
      simp only [execStmt]
      split
      · have hkey : ∀ x : ResultRow,
            ((if resultKeyMatches j rg k x then { x with response_data := v } else x)
              : ResultRow).job_id = x.job_id
            ∧ ((if resultKeyMatches j rg k x then { x with response_data := v } else x)
              : ResultRow).region_id = x.region_id
            ∧ ((if resultKeyMatches j rg k x then { x with response_data := v } else x)
              : ResultRow).query_id = x.query_id := by
          intro x
          by_cases hx : resultKeyMatches j rg k x = true
          · rw [if_pos hx]; exact ⟨rfl, rfl, rfl⟩
          · rw [if_neg hx]; exact ⟨rfl, rfl, rfl⟩
        show noDupResultKeys (db.results.map fun row =>
            if resultKeyMatches j rg k row then { row with response_data := v } else row) = true
        rw [noDup_map_keys _ hkey db.results]
        exact h
      · next hany =>
          show noDupResultKeys (db.results ++ [⟨j, rg, k, v⟩]) = true
          apply noDup_append_new _ _ h
          simpa using hany

/-- Any statement sequence preserves key-uniqueness of the Results Store. -/
theorem noDupResultKeys_execStmts (stmts : List SqlStmt) :
    ∀ db : DB, noDupResultKeys db.results = true →
      noDupResultKeys (execStmts db stmts).results = true := by
  induction stmts with
  | nil => intro db h; exact h
  | cons s rest ih =>
      intro db h
      exact ih (execStmt db s) (noDupResultKeys_execStmt db s h)

/-- The upsert leaves a row with the addressed key present. -/
theorem resultExists_upsert (db : DB) (j rg : Nat) (k : String) (v : JSValue) :
    resultExists (execStmt db (SqlStmt.upsertResult j rg k v)) j rg k = true := by
  simp only [execStmt]
  split
  · next hany =>
      have hf : ∀ row : ResultRow,
          resultKeyMatches j rg k
              (if resultKeyMatches j rg k row then { row with response_data := v } else row)
            = resultKeyMatches j rg k row := by
        intro row
        by_cases hx : resultKeyMatches j rg k row = true
        · rw [if_pos hx]; rfl
        · rw [if_neg hx]
      show (db.results.map fun row =>
          if resultKeyMatches j rg k row then { row with response_data := v } else row).any
            (resultKeyMatches j rg k) = true
      rw [any_map_of_pres _ _ hf db.results]
      exact hany
  · show (db.results ++ [(⟨j, rg, k, v⟩ : ResultRow)]).any (resultKeyMatches j rg k) = true
    simp [List.any_append, List.any_cons, resultKeyMatches]

/-- C4 (amended): key-uniqueness of the Result Payload store holds in every
state reachable by any statement sequence from a key-unique state (the
upsert never duplicates a key); and once the success path's full sequence
— upsert, then status update — has run, the paired Task Instance is done
and the row exists.  However a Result Payload row can exist while the Task
Instance is still running, because the upsert is a separate auto-committed
statement issued before the status update (see the counterexample). -/
theorem result_payload_unique_invariant (db : DB) (stmts : List SqlStmt) (q j rg : Nat)
    (k : String) (v : JSValue)
    (h : noDupResultKeys db.results = true) (hq : queueHasRow db q = true) :
    noDupResultKeys (execStmts db stmts).results = true
    ∧ (queueStatus (execStmts db (saveCareerIntelligence j rg k v
          ++ markQueueItemComplete q j rg k)) q = some Status.ok
      ∧ resultExists (execStmts db (saveCareerIntelligence j rg k v
          ++ markQueueItemComplete q j rg k)) j rg k = true) := by
  refine ⟨noDupResultKeys_execStmts stmts db h, ?_, ?_⟩
  · have hframe : (execStmt db (SqlStmt.upsertResult j rg k v)).queue = db.queue := by
      simp only [execStmt]; split <;> rfl
    have hq' : queueHasRow (execStmt db (SqlStmt.upsertResult j rg k v)) q = true := by
      unfold queueHasRow
      rw [hframe]
      exact hq
    exact queueStatus_updateQueueOk (execStmt db (SqlStmt.upsertResult j rg k v)) q hq'
  · exact resultExists_upsert db j rg k v

/-- Witness for C4's amended theorem at a concrete database. -/
theorem result_payload_unique_invariant_witness :
    noDupResultKeys (execStmts exampleDB (saveCareerIntelligence 10 1 "salary" goodPayload
        ++ markQueueItemComplete 1 10 1 "salary")).results = true
    ∧ queueStatus (execStmts exampleDB (saveCareerIntelligence 10 1 "salary" goodPayload
        ++ markQueueItemComplete 1 10 1 "salary")) 1 = some Status.ok :=
  ⟨(result_payload_unique_invariant exampleDB (saveCareerIntelligence 10 1 "salary" goodPayload
        ++ markQueueItemComplete 1 10 1 "salary") 1 10 1 "salary" goodPayload rfl rfl).1,
   (result_payload_unique_invariant exampleDB [] 1 10 1 "salary" goodPayload rfl rfl).2.1⟩

/-- C4's counterexample: on the live success path the worker's first two
statements are the mark-running UPDATE and the Result Payload upsert; in
the state visible after those two auto-committed statements (before
markQueueItemComplete runs), the Result Payload row for the key exists
while the paired Task Instance still has status running, not done. -/
theorem result_row_while_running_cex :
    (processQueueItem cfgDefault exampleItem optsLive
        (fun _ => Sum.inr (Except.ok goodPayload))).stmts.take 2
      = [SqlStmt.updateQueueRunning 1, SqlStmt.upsertResult 10 1 "salary" goodPayload]
    ∧ resultExists (execStmts exampleDB
        ((processQueueItem cfgDefault exampleItem optsLive
            (fun _ => Sum.inr (Except.ok goodPayload))).stmts.take 2)) 10 1 "salary" = true
    ∧ queueStatus (execStmts exampleDB
        ((processQueueItem cfgDefault exampleItem optsLive
            (fun _ => Sum.inr (Except.ok goodPayload))).stmts.take 2)) 1
      = some Status.running := by
  rw [processQueueItem, callOpenAI]
  exact ⟨rfl, rfl, rfl⟩

/-! ## callOpenAI: retry chain lemmas -/

/-- Step equation: a successful attempt ends the chain with one call. -/
theorem callOpenAI_inr (cfg : AiConfig) (attempts : Nat → Sum ApiError Payload)
    (r : Nat) (c : Payload) (hA : attempts r = Sum.inr c) :
    callOpenAI cfg attempts r = (Except.ok c, 1, []) := by
  conv_lhs => rw [callOpenAI]
  rw [hA]

/-- Step equation: a failing attempt either retries or stops. -/
theorem callOpenAI_inl (cfg : AiConfig) (attempts : Nat → Sum ApiError Payload)
    (r : Nat) (e : ApiError) (hA : attempts r = Sum.inl e) :
    callOpenAI cfg attempts r =
      if shouldRetry cfg e r = true then
        ((callOpenAI cfg attempts (r + 1)).1, (callOpenAI cfg attempts (r + 1)).2.1 + 1,
         backoffMs cfg r :: (callOpenAI cfg attempts (r + 1)).2.2)
      else (Except.error e, 1, []) := by
  conv_lhs => rw [callOpenAI]
  rw [hA]
  rfl

/-- Step equation for a retried failing attempt. -/
theorem callOpenAI_inl_retry (cfg : AiConfig) (attempts : Nat → Sum ApiError Payload)
    (r : Nat) (e : ApiError) (hA : attempts r = Sum.inl e)
    (hs : shouldRetry cfg e r = true) :
    callOpenAI cfg attempts r
      = ((callOpenAI cfg attempts (r + 1)).1, (callOpenAI cfg attempts (r + 1)).2.1 + 1,
         backoffMs cfg r :: (callOpenAI cfg attempts (r + 1)).2.2) := by
  rw [callOpenAI_inl cfg attempts r e hA, if_pos hs]

/-- Step equation for a terminal failing attempt. -/
theorem callOpenAI_inl_stop (cfg : AiConfig) (attempts : Nat → Sum ApiError Payload)
    (r : Nat) (e : ApiError) (hA : attempts r = Sum.inl e)
    (hs : shouldRetry cfg e r = false) :
    callOpenAI cfg attempts r = (Except.error e, 1, []) := by
  rw [callOpenAI_inl cfg attempts r e hA, if_neg (by rw [hs]; simp)]

/-- Every attempt chain makes at least one API call. -/
theorem callOpenAI_calls_pos (cfg : AiConfig) (attempts : Nat → Sum ApiError Payload)
    (r : Nat) : 1 ≤ (callOpenAI cfg attempts r).2.1 := by
  cases hA : attempts r with
  | inr c =>
      rw [callOpenAI_inr cfg attempts r c hA]
  | inl e =>
      by_cases hs : shouldRetry cfg e r = true
      · rw [callOpenAI_inl_retry cfg attempts r e hA hs]
        show 1 ≤ (callOpenAI cfg attempts (r + 1)).2.1 + 1
        omega
      · rw [callOpenAI_inl_stop cfg attempts r e hA (by simpa using hs)]

/-- The delays slept by a chain starting at attempt index r are exactly
backoffMs at the consecutive indices r, r+1, ..., and the number of
retries (calls − 1) never exceeds retryMax − r. -/
theorem callOpenAI_chain (cfg : AiConfig) (attempts : Nat → Sum ApiError Payload) :
    ∀ g r, cfg.retryMax - r ≤ g →
      (callOpenAI cfg attempts r).2.2
          = (List.range' r ((callOpenAI cfg attempts r).2.1 - 1)).map (backoffMs cfg)
        ∧ (callOpenAI cfg attempts r).2.1 - 1 ≤ cfg.retryMax - r := by
  intro g
  induction g with
  | zero =>
      intro r hr
      cases hA : attempts r with
      | inr c =>
          rw [callOpenAI_inr cfg attempts r c hA]
          simp
      | inl e =>
          have hs : shouldRetry cfg e r = false := by
            unfold shouldRetry
            have hnot : ¬(r < cfg.retryMax) := by omega
            simp [hnot]
          rw [callOpenAI_inl_stop cfg attempts r e hA hs]
          simp
  | succ g ih =>
      intro r hr
      cases hA : attempts r with
      | inr c =>
          rw [callOpenAI_inr cfg attempts r c hA]
          simp
      | inl e =>
          by_cases hs : shouldRetry cfg e r = true
          · rw [callOpenAI_inl_retry cfg attempts r e hA hs]
            have hrlt : r < cfg.retryMax := by
              have hs' := hs
              unfold shouldRetry at hs'
              simp only [Bool.and_eq_true, decide_eq_true_eq] at hs'
              exact hs'.2
            obtain ⟨ihd, ihc⟩ := ih (r + 1) (by omega)
            have hpos := callOpenAI_calls_pos cfg attempts (r + 1)
            show backoffMs cfg r :: (callOpenAI cfg attempts (r + 1)).2.2
                = (List.range' r ((callOpenAI cfg attempts (r + 1)).2.1 + 1 - 1)).map
                    (backoffMs cfg)
              ∧ (callOpenAI cfg attempts (r + 1)).2.1 + 1 - 1 ≤ cfg.retryMax - r
            obtain ⟨m, hm⟩ : ∃ m, (callOpenAI cfg attempts (r + 1)).2.1 = m + 1 :=
              ⟨(callOpenAI cfg attempts (r + 1)).2.1 - 1, by omega⟩
            rw [hm] at ihd ihc ⊢
            constructor
            · rw [Nat.add_sub_cancel, List.range'_succ, List.map_cons]
              rw [Nat.add_sub_cancel] at ihd
              rw [ihd]
            · omega
          · rw [callOpenAI_inl_stop cfg attempts r e hA (by simpa using hs)]
            simp

/-! ## C7: backoff schedule -/

/-- C7: the delay computed before retry attempt index i is exactly
base_backoff * 2^i (base_backoff = backoffSec * 1000 ms); the schedule is
non-decreasing in the attempt index; the delays actually slept by a chain
started at index 0 are backoffMs 0, backoffMs 1, ... in order; and the
number of retries (API calls minus one) never exceeds the configured
maximum retry count. -/
theorem backoff_schedule_correct (cfg : AiConfig) (attempts : Nat → Sum ApiError Payload) :
    (∀ i, backoffMs cfg i = cfg.backoffSec * 1000 * 2 ^ i)
    ∧ (∀ i j, i ≤ j → backoffMs cfg i ≤ backoffMs cfg j)
    ∧ (∀ r, (callOpenAI cfg attempts r).2.2
        = (List.range' r ((callOpenAI cfg attempts r).2.1 - 1)).map (backoffMs cfg))
    ∧ ((callOpenAI cfg attempts 0).2.1 - 1 ≤ cfg.retryMax) := by
  refine ⟨fun i => rfl, ?_, ?_, ?_⟩
  · intro i j hij
    unfold backoffMs
    exact Nat.mul_le_mul_left _ (Nat.pow_le_pow_right (by omega) hij)
  · intro r
    exact (callOpenAI_chain cfg attempts (cfg.retryMax - r) r (le_refl _)).1
  · have h := (callOpenAI_chain cfg attempts cfg.retryMax 0 (by omega)).2
    omega

/-! ## C5: retry classification -/

/-- C5's counterexample: a transport timeout (no HTTP status, no API error
code) is TransientUpstream per the spec's taxonomy, yet the code does not
retry it: with retries remaining, the chain ends after one call. -/
theorem timeout_not_retried_cex :
    specTransientUpstream timeoutError = true
    ∧ shouldRetry cfgDefault timeoutError 0 = false
    ∧ callOpenAI cfgDefault (fun _ => Sum.inl timeoutError) 0
        = (Except.error timeoutError, 1, []) :=
  ⟨rfl, rfl, callOpenAI_inl_stop cfgDefault (fun _ => Sum.inl timeoutError) 0 timeoutError rfl rfl⟩

/-- C5 (amended): a failing Generation Service call is retried (within the
configured cap) exactly when it is a rate limit (HTTP 429 or code
rate_limit_exceeded) or a server fault (HTTP status ≥ 500); every other
failure — including transport timeouts, which carry no HTTP status and no
API error code — ends the attempt chain immediately with a single call. -/
theorem retry_classification_iff (cfg : AiConfig) (attempts : Nat → Sum ApiError Payload)
    (i : Nat) (e : ApiError) (h : attempts i = Sum.inl e) :
    ((2 ≤ (callOpenAI cfg attempts i).2.1) ↔
        ((isRateLimitError e || isServerError e) = true ∧ i < cfg.retryMax))
    ∧ ((isRateLimitError e || isServerError e) = false →
        callOpenAI cfg attempts i = (Except.error e, 1, []))
    ∧ (e.status = none → e.code = none →
        (isRateLimitError e || isServerError e) = false) := by
  refine ⟨?_, ?_, ?_⟩
  · by_cases hs : shouldRetry cfg e i = true
    · rw [callOpenAI_inl_retry cfg attempts i e h hs]
      have hs' := hs
      unfold shouldRetry at hs'
      simp only [Bool.and_eq_true, decide_eq_true_eq] at hs'
      have hpos := callOpenAI_calls_pos cfg attempts (i + 1)
      constructor
      · intro _
        exact hs'
      · intro _
        show 2 ≤ (callOpenAI cfg attempts (i + 1)).2.1 + 1
        omega
    · rw [callOpenAI_inl_stop cfg attempts i e h (by simpa using hs)]
      constructor
      · intro h2
        have h2' : (2 : Nat) ≤ 1 := h2
        omega
      · intro hcl
        exact absurd (by unfold shouldRetry; simp [hcl.1, hcl.2]) hs
  · intro hcl
    have hs : shouldRetry cfg e i = false := by
      unfold shouldRetry
      rw [hcl]
      rfl
    exact callOpenAI_inl_stop cfg attempts i e h hs
  · intro hst hcode
    unfold isRateLimitError isServerError
    rw [hst, hcode]
    rfl

/-- Witness for C5's amended theorem: a timeout error at attempt 0 with the
default configuration ends the chain immediately. -/
theorem retry_classification_iff_witness :
    callOpenAI cfgDefault (fun _ => Sum.inl timeoutError) 0
      = (Except.error timeoutError, 1, []) :=
  (retry_classification_iff cfgDefault (fun _ => Sum.inl timeoutError) 0 timeoutError
    rfl).2.1 rfl

/-! ## C6: validation failures are terminal and never retried -/

/-- C6: when the Generation Service chain returns a payload whose
validation fails (a required top-level field missing), processQueueItem
returns false, makes exactly the n API calls the single chain already
made (zero additional calls — validation failures are never retried), and
its remaining statements are precisely the failure commit, which leaves
the Task Instance in the failed ('error') terminal status. -/
theorem validation_failure_terminal (cfg : AiConfig) (item : QueueItem) (opts : WorkerOptions)
    (attempts : Nat → Sum ApiError Payload) (content : Payload) (n : Nat) (ds : List Nat)
    (hdry : opts.dryRun = false)
    (hcall : callOpenAI cfg attempts 0 = (Except.ok content, n, ds))
    (hinvalid : (validateJSON content none).valid = false) :
    (processQueueItem cfg item opts attempts).success = false
    ∧ (processQueueItem cfg item opts attempts).apiCalls = n
    ∧ (processQueueItem cfg item opts attempts).stmts
        = markQueueItemRunning item.queue_id
          ++ markQueueItemError item.queue_id item.job_id item.region_id item.query_id
               ("Invalid JSON response: " ++ optText (validateJSON content none).error)
    ∧ ∀ db : DB, queueHasRow db item.queue_id = true →
        queueStatus (execStmts db (processQueueItem cfg item opts attempts).stmts)
          item.queue_id = some Status.error := by
  have hstep : processQueueItem cfg item opts attempts =
      { stmts := markQueueItemRunning item.queue_id
          ++ markQueueItemError item.queue_id item.job_id item.region_id item.query_id
               ("Invalid JSON response: " ++ optText (validateJSON content none).error),
        apiCalls := n, success := false } := by
    simp only [processQueueItem, hdry, hcall, hinvalid, Bool.false_eq_true, if_false]
  rw [hstep]
  refine ⟨rfl, rfl, rfl, ?_⟩
  intro db hdb
  have hid : ∀ r : QueueRow,
      queueIdMatches item.queue_id
          (if queueIdMatches item.queue_id r then { r with status := Status.running } else r)
        = queueIdMatches item.queue_id r := by
    intro r
    by_cases hr : queueIdMatches item.queue_id r = true
    · rw [if_pos hr]; rfl
    · rw [if_neg hr]
  have hdb1 : queueHasRow (execStmt db (SqlStmt.updateQueueRunning item.queue_id))
      item.queue_id = true := by
    show (db.queue.map fun r =>
        if queueIdMatches item.queue_id r then { r with status := Status.running } else r).any
          (queueIdMatches item.queue_id) = true
    rw [any_map_of_pres _ _ hid db.queue]
    exact hdb
  exact queueStatus_updateQueueError (execStmt db (SqlStmt.updateQueueRunning item.queue_id))
    item.queue_id
    (jsSubstring 1000 ("Invalid JSON response: " ++ optText (validateJSON content none).error))
    hdb1

/-- Witness for C6's theorem: a live run whose single successful call
returns a payload missing `provenance` commits a failed terminal state
with exactly one API call. -/
theorem validation_failure_terminal_witness :
    (processQueueItem cfgDefault exampleItem optsLive
        (fun _ => Sum.inr (Except.ok badPayload))).success = false
    ∧ (processQueueItem cfgDefault exampleItem optsLive
        (fun _ => Sum.inr (Except.ok badPayload))).apiCalls = 1
    ∧ queueStatus (execStmts exampleDB
        (processQueueItem cfgDefault exampleItem optsLive
          (fun _ => Sum.inr (Except.ok badPayload))).stmts) 1 = some Status.error := by
  have h := validation_failure_terminal cfgDefault exampleItem optsLive
      (fun _ => Sum.inr (Except.ok badPayload)) (Except.ok badPayload) 1 [] rfl
      (callOpenAI_inr cfgDefault (fun _ => Sum.inr (Except.ok badPayload)) 0
        (Except.ok badPayload) rfl)
      rfl
  exact ⟨h.1, h.2.1, h.2.2.2 exampleDB rfl⟩

/-! ## C8: the claim query picks the best visible pending row -/

/-- Bool-to-Prop reading of the ORDER BY comparison. -/
theorem orderedBefore_iff (a b : QueueRow) :
    orderedBefore a b = true
      ↔ (b.priority < a.priority ∨ (a.priority = b.priority ∧ a.id < b.id)) := by
  unfold orderedBefore
  simp [Bool.or_eq_true, Bool.and_eq_true, decide_eq_true_eq, beq_iff_eq, gt_iff_lt]

/-- A fetched row is a visible pending member of the queue. -/
theorem fetchQueueItem_mem (regionCode : Option String) (locked : List Nat) :
    ∀ (rows : List QueueRow) (r : QueueRow),
      fetchQueueItem regionCode locked rows = some r →
      r ∈ rows ∧ visiblePending regionCode locked r = true := by
  intro rows
  induction rows with
  | nil => intro r h; exact absurd h (by simp [fetchQueueItem])
  | cons x xs ih =>
      intro r h
      cases hrec : fetchQueueItem regionCode locked xs with
      | none =>
          simp only [fetchQueueItem, hrec] at h
          by_cases hv : visiblePending regionCode locked x = true
          · rw [if_pos hv] at h
            obtain rfl := Option.some.inj h
            exact ⟨List.mem_cons_self x xs, hv⟩
          · rw [if_neg hv] at h
            exact absurd h (by simp)
      | some best =>
          simp only [fetchQueueItem, hrec] at h
          by_cases hv : visiblePending regionCode locked x = true
          · rw [if_pos hv] at h
            obtain rfl := Option.some.inj h
            unfold preferredRow
            by_cases hb : orderedBefore best x = true
            · rw [if_pos hb]
              obtain ⟨hm, hvis⟩ := ih best hrec
              exact ⟨List.mem_cons_of_mem x hm, hvis⟩
            · rw [if_neg hb]
              exact ⟨List.mem_cons_self x xs, hv⟩
          · rw [if_neg hv] at h
            obtain rfl := Option.some.inj h
            obtain ⟨hm, hvis⟩ := ih best hrec
            exact ⟨List.mem_cons_of_mem x hm, hvis⟩

/-- The claim query returns none exactly when no row is visible. -/
theorem fetchQueueItem_none_iff (regionCode : Option String) (locked : List Nat) :
    ∀ rows : List QueueRow,
      (fetchQueueItem regionCode locked rows = none ↔
        ∀ r ∈ rows, visiblePending regionCode locked r = false) := by
  intro rows
  induction rows with
  | nil => simp [fetchQueueItem]
  | cons x xs ih =>
      constructor
      · intro h
        cases hrec : fetchQueueItem regionCode locked xs with
        | none =>
            simp only [fetchQueueItem, hrec] at h
            by_cases hv : visiblePending regionCode locked x = true
            · rw [if_pos hv] at h
              exact absurd h (by simp)
            · intro r hr
              rcases List.mem_cons.mp hr with rfl | hrx
              · simpa using hv
              · exact (ih.mp hrec) r hrx
        | some best =>
            simp only [fetchQueueItem, hrec] at h
            by_cases hv : visiblePending regionCode locked x = true
            · rw [if_pos hv] at h
              exact absurd h (by simp)
            · rw [if_neg hv] at h
              exact absurd h (by simp)
      · intro hall
        have hx : visiblePending regionCode locked x = false :=
          hall x (List.mem_cons_self x xs)
        have hxs : fetchQueueItem regionCode locked xs = none :=
          ih.mpr (fun r hr => hall r (List.mem_cons_of_mem x hr))
        simp only [fetchQueueItem]
        rw [hxs, if_neg (by simp [hx])]

/-- The fetched row sorts no later than any other visible row: strictly
higher priority, or equal priority and no larger id. -/
theorem fetchQueueItem_best (regionCode : Option String) (locked : List Nat) :
    ∀ (rows : List QueueRow) (r : QueueRow),
      fetchQueueItem regionCode locked rows = some r →
      ∀ r' ∈ rows, visiblePending regionCode locked r' = true →
        r'.priority < r.priority ∨ (r.priority = r'.priority ∧ r.id ≤ r'.id) := by
  intro rows
  induction rows with
  | nil => intro r h; exact absurd h (by simp [fetchQueueItem])
  | cons x xs ih =>
      intro r h r' hr' hvis'
      cases hrec : fetchQueueItem regionCode locked xs with
      | none =>
          simp only [fetchQueueItem, hrec] at h
          by_cases hv : visiblePending regionCode locked x = true
          · rw [if_pos hv] at h
            obtain rfl := Option.some.inj h
            rcases List.mem_cons.mp hr' with rfl | hrx
            · right; exact ⟨rfl, le_refl _⟩
            · have hfalse := (fetchQueueItem_none_iff regionCode locked xs).mp hrec r' hrx
              rw [hfalse] at hvis'
              simp at hvis'
          · rw [if_neg hv] at h
            exact absurd h (by simp)
      | some best =>
          simp only [fetchQueueItem, hrec] at h
          by_cases hv : visiblePending regionCode locked x = true
          · rw [if_pos hv] at h
            obtain rfl := Option.some.inj h
            rcases List.mem_cons.mp hr' with rfl | hrx
            · unfold preferredRow
              by_cases hb : orderedBefore best r' = true
              · rw [if_pos hb]
                rw [orderedBefore_iff] at hb
                rcases hb with h1 | ⟨h2, h3⟩
                · left; exact h1
                · right; exact ⟨h2, Nat.le_of_lt h3⟩
              · rw [if_neg hb]
                right; exact ⟨rfl, le_refl _⟩
            · have hbest := ih best hrec r' hrx hvis'
              unfold preferredRow
              by_cases hb : orderedBefore best x = true
              · rw [if_pos hb]
                exact hbest
              · rw [if_neg hb]
                have hb' : ¬(x.priority < best.priority
                    ∨ (best.priority = x.priority ∧ best.id < x.id)) := by
                  rw [← orderedBefore_iff]
                  exact hb
                have hA1 : best.priority ≤ x.priority := by
                  by_contra hlt
                  exact hb' (Or.inl (by omega))
                have hA2 : best.priority = x.priority → x.id ≤ best.id := by
                  intro heq
                  by_contra hid
                  exact hb' (Or.inr ⟨heq, by omega⟩)
                rcases hbest with h1 | ⟨h2, h3⟩
                · left; omega
                · by_cases heq : best.priority = x.priority
                  · right
                    have hid := hA2 heq
                    exact ⟨by omega, by omega⟩
                  · left; omega
          · rw [if_neg hv] at h
            obtain rfl := Option.some.inj h
            rcases List.mem_cons.mp hr' with rfl | hrx
            · exact absurd hvis' hv
            · exact ih best hrec r' hrx hvis'

/-- C8: the claim query returns only a pending row that is visible (status
pending, matching the optional region filter, not locked): among all
visible pending rows it returns one of highest priority, ties broken by
lowest id (oldest enqueued); rows in running, done (ok), or failed
(error) status are never returned; and it returns none exactly when no
pending row is visible. -/
theorem fetchQueueItem_selects_best (regionCode : Option String) (locked : List Nat)
    (rows : List QueueRow) :
    (∀ r, fetchQueueItem regionCode locked rows = some r →
        r ∈ rows ∧ r.status = Status.pending
          ∧ visiblePending regionCode locked r = true
          ∧ ∀ r' ∈ rows, visiblePending regionCode locked r' = true →
              r'.priority < r.priority ∨ (r.priority = r'.priority ∧ r.id ≤ r'.id))
    ∧ (fetchQueueItem regionCode locked rows = none ↔
        ∀ r ∈ rows, visiblePending regionCode locked r = false) := by
  refine ⟨?_, fetchQueueItem_none_iff regionCode locked rows⟩
  intro r h
  obtain ⟨hm, hv⟩ := fetchQueueItem_mem regionCode locked rows r h
  refine ⟨hm, ?_, hv, fetchQueueItem_best regionCode locked rows r h⟩
  have hv' := hv
  unfold visiblePending at hv'
  simp only [Bool.and_eq_true, beq_iff_eq] at hv'
  exact hv'.1.1

end CareerPipeline
